import Mathlib

/-!
Verification development for the Navchetna data-manager repository.

The development shallowly embeds the parts of the code that the claims
concern:

* pandas `DataFrame`s become `DF` (an ordered column list plus row-major
  cell lists; a cell is a `Value`);
* `utils/mongodb_manager.py`'s online-mode `read_dataframe` /
  `write_dataframe` and its `_clean_dataframe_for_storage` /
  `_is_numeric_column` cleaning pass become `mongoRead` / `mongoWrite` /
  `cleanDF` / `isNumericColumn` over a MongoDB state `MStore`
  (a collection name to document-list map; a collection is stored as the
  `DF` whose records were inserted);
* `utils/table_manager.py`'s `TableManager` becomes a set of functions over
  `TMState`: the `tables` registry row-set is modelled structurally as a
  `List TableDef` (the `str`/`ast.literal_eval` serialisation of the
  `fields` and `associated_projects` cells is modelled by the parsed value
  itself, i.e. the `literal_eval` success path), the `projects` row-set by
  its `Project_Name` column, and per-project row-sets by a total map from
  `(project-or-none, collection-name)` keys to `DF`, with the storage
  adapter idealised to the contract of spec section 4.4 (read returns what
  was last written, missing row-sets read as the empty frame);
* `utils/auth_manager.py`'s `authenticate_user` becomes `authenticateUser`
  over the `users` row-set, parameterised by the digest function.

`datetime.now()` timestamps are threaded as explicit `now : String`
arguments or fixed to `""` where no claim observes them; the Streamlit
session cache of `get_all_tables` is omitted (every modelled operation
either clears it or refreshes it with exactly the frame it wrote, so the
cache-free reads coincide with the code's reads on the modelled call
sequences).
-/

/-- A pandas cell: missing (`NaN`/`None`), a string, a float (modelled as a
rational; the claims only compare float cells for equality, never compute
with them), or a Python bool. -/
inductive Value where
  | na
  | vStr (s : String)
  | vFloat (q : Rat)
  | vBool (b : Bool)
deriving DecidableEq, Repr, Inhabited

/-- Digit list to number, most significant first. -/
def digitsToNat (cs : List Char) : Nat :=
  cs.foldl (fun a c => a * 10 + (c.toNat - 48)) 0

/-- Model of Python `float(s)` / `pd.to_numeric` on a string (`pyTrim` and
`parseNum` together): optional sign, decimal digits with an optional
fractional part, surrounding whitespace stripped.  (Exponent forms are not
modelled; both the numeric-column test and the numeric conversion in the
code use the same parse, and the development is parametric in exactly which
strings parse.) -/
def pyTrim (s : String) : List Char :=
  ((s.data.dropWhile Char.isWhitespace).reverse.dropWhile Char.isWhitespace).reverse

/-- See the comment above `pyTrim`: the numeric-string parse itself. -/
def parseNum (s : String) : Option Rat :=
  let cs := pyTrim s
  let sgn : Int := if cs.head? = some '-' then -1 else 1
  let cs := match cs with
    | '-' :: r => r
    | '+' :: r => r
    | _ => cs
  let intPart := cs.takeWhile Char.isDigit
  let rest := cs.dropWhile Char.isDigit
  match rest with
  | [] =>
    if intPart.isEmpty then none
    else some ((sgn * (digitsToNat intPart : Int) : Int) : Rat)
  | '.' :: frac =>
    if frac.all Char.isDigit && !(intPart.isEmpty && frac.isEmpty) then
      some ((sgn : Rat) *
        ((digitsToNat intPart : Rat) + (digitsToNat frac : Rat) / ((10 : Rat) ^ frac.length)))
    else none
  | _ => none

/-- A pandas DataFrame: ordered column labels and row-major cells.  Frames
produced by the code are rectangular (every row has one cell per column). -/
structure DF where
  cols : List String
  rows : List (List Value)
deriving DecidableEq, Repr, Inhabited

/-- The empty frame `pd.DataFrame()`. -/
def emptyDF : DF := ⟨[], []⟩

/-- pandas `df.empty`: true when either axis has length 0. -/
def DF.isEmpty (df : DF) : Bool :=
  df.rows.isEmpty || df.cols.isEmpty

/-- Column `j` of a frame, as the list of its cells top to bottom. -/
def getColumn (df : DF) (j : Nat) : List Value :=
  df.rows.map (fun r => r.getD j Value.na)

/-- `df[name] = v`: append a column at the end, every row filled with `v`. -/
def addColumn (df : DF) (name : String) (v : Value) : DF :=
  ⟨df.cols ++ [name], df.rows.map (fun r => r ++ [v])⟩

/-- `df.drop(columns=[name])`: remove every column labelled `name`
(positionally, cell by cell). -/
def dropColumn (df : DF) (name : String) : DF :=
  ⟨df.cols.filter (fun c => !(c == name)),
   df.rows.map (fun r => ((df.cols.zip r).filter (fun cv => !(cv.1 == name))).map (·.2))⟩

/-- First position of a column label (`pandas columns.get_loc` on the frames
the code builds, whose labels are distinct). -/
def colIndex : List String → String → Option Nat
  | [], _ => none
  | c :: cs, name => if c == name then some 0 else (colIndex cs name).map (· + 1)

/-- First index of a registry row satisfying a predicate
(`df[df[col] == x].index[0]`). -/
def firstIdx (p : α → Bool) : List α → Option Nat
  | [] => none
  | x :: xs => if p x then some 0 else (firstIdx p xs).map (· + 1)

/-! ## MongoDB backend (`utils/mongodb_manager.py`, online mode) -/

/-- The placeholder strings that `_clean_dataframe_for_storage` replaces by
the empty string. -/
def placeholders : List String := ["nan", "None", "NaN", "null"]

/-- Python `str()` of a cell after `fillna('')`: `NaN` becomes `''`, strings
stay, floats and bools render (`str(5.0) = "5.0"`, `str(True) = "True"`). -/
def pyStr : Value → String
  | Value.na => ""
  | Value.vStr s => s
  | Value.vFloat q => if q.den = 1 then toString q.num ++ ".0" else toString q
  | Value.vBool b => if b then "True" else "False"

/-- The string column after `fillna('')`, `astype(str)` and the placeholder
replacement — the first three cleaning steps. -/
def colStrings (col : List Value) : List String :=
  (col.map pyStr).map (fun s => if s ∈ placeholders then "" else s)

/-- `_is_numeric_column`: drop `''` and the placeholders; numeric iff
something is left and everything left parses. -/
def isNumericColumn (ss : List String) : Bool :=
  let ne := ss.filter (fun s => !(s == "" || s ∈ placeholders))
  !ne.isEmpty && ne.all (fun s => (parseNum s).isSome)

/-- One column of `_clean_dataframe_for_storage`: after the string steps,
a numeric column has `''` replaced by `'0'` and is converted to float, any
other column stays as strings. -/
def cleanColumn (col : List Value) : List Value :=
  let repl := colStrings col
  if isNumericColumn repl then
    repl.map (fun s => Value.vFloat ((parseNum (if s = "" then "0" else s)).getD 0))
  else
    repl.map Value.vStr

/-- `_clean_dataframe_for_storage`: clean every column, keeping labels and
row count. -/
def cleanDF (df : DF) : DF :=
  let cleaned := (List.range df.cols.length).map (fun j => cleanColumn (getColumn df j))
  ⟨df.cols,
   (List.range df.rows.length).map (fun i => cleaned.map (fun cv => cv.getD i Value.na))⟩

/-- `s.replace(' ', '_').lower()` character by character (the replaced
pattern is a single character, so the substring replacement is exactly this
map). -/
def underscoreLower (s : String) : String :=
  String.mk (s.data.map (fun c => if c = ' ' then '_' else c.toLower))

/-- `get_collection`'s collection naming: `f"{project}_{collection}"` when a
project is given, spaces to underscores, lower-cased. -/
def mongoKey (project : Option String) (collectionName : String) : String :=
  match project with
  | some p => underscoreLower (p ++ "_" ++ collectionName)
  | none => underscoreLower collectionName

/-- The MongoDB database: each collection holds the frame whose records were
inserted into it (an absent or empty collection is the empty frame). -/
def MStore : Type := String → DF

/-- `read_dataframe` (online): fetch the collection's documents; a frame
when there are any, `pd.DataFrame()` otherwise. -/
def mongoRead (s : MStore) (project : Option String) (collectionName : String) : DF :=
  let d := s (mongoKey project collectionName)
  if d.rows.isEmpty then emptyDF else d

/-- `write_dataframe` (online): clean the frame; only when the cleaned frame
is non-empty are the existing documents deleted and the new records
inserted; returns `True`. -/
def mongoWrite (s : MStore) (project : Option String) (collectionName : String)
    (df : DF) : Bool × MStore :=
  let dfc := cleanDF df
  if dfc.isEmpty then (true, s)
  else (true, fun k => if k = mongoKey project collectionName then dfc else s k)

/-! ## Table manager (`utils/table_manager.py`) -/

/-- A field dictionary of a table definition: the `name`, `type`, `required`
and `default` keys (`dropdown_options` is never consulted by the modelled
operations). -/
structure FieldConfig where
  name : String
  ftype : String
  required : Bool := true
  default : String := ""
deriving DecidableEq, Repr, Inhabited

/-- One row of the `tables` registry row-set; `fields` and
`associated_projects` hold the parsed value of the serialised cells
(`associated_projects := none` models an absent cell, as in the default
system tables). -/
structure TableDef where
  table_name : String
  description : String
  fields : List FieldConfig
  created_date : String
  table_type : String
  associated_projects : Option (List String)
deriving DecidableEq, Repr, Inhabited

/-- The state a `TableManager` operates on: the `tables` registry, the
`Project_Name` column of the `projects` row-set, and every per-project
row-set, through the idealised storage adapter of spec section 4.4. -/
structure TMState where
  registry : List TableDef
  projects : List String
  data : Option String × String → DF

/-- Overwrite one stored row-set (`write_dataframe` of the idealised
adapter). -/
def putData (d : Option String × String → DF) (k : Option String × String)
    (df : DF) : Option String × String → DF :=
  fun k2 => if k2 = k then df else d k2

/-- `_create_default_tables` (the two system tables; `created_date` is the
unobserved `datetime.now()` timestamp, fixed to `""`). -/
def defaultTables : List TableDef :=
  [⟨"KML Tracking", "Track KML files and approval status",
    [⟨"Date", "Date", true, ""⟩, ⟨"User", "Text", true, ""⟩,
     ⟨"KML_Count_Sent", "Number", true, "0"⟩, ⟨"Total_Area", "Number", true, "0"⟩,
     ⟨"Area_Approved", "Number", true, "0"⟩, ⟨"Approval_Date", "Date", false, ""⟩,
     ⟨"Status", "Text", true, "Pending"⟩, ⟨"Remarks", "Text", false, ""⟩],
    "", "system", none⟩,
   ⟨"Plantation Records", "Track plantation activities and progress",
    [⟨"Date", "Date", true, ""⟩, ⟨"User", "Text", true, ""⟩,
     ⟨"Plot_Code", "Text", true, ""⟩, ⟨"Area_Planted", "Number", true, "0"⟩,
     ⟨"Farmer_Covered", "Number", true, "0"⟩, ⟨"Trees_Planted", "Number", true, "0"⟩,
     ⟨"Pits_Dug", "Number", true, "0"⟩, ⟨"Status", "Text", true, "In Progress"⟩],
    "", "system", none⟩]

/-- `get_all_tables` (fresh read): the registry, except that an empty
registry is replaced by the freshly written default tables. -/
def getAllTables (st : TMState) : List TableDef × TMState :=
  if st.registry.isEmpty then (defaultTables, { st with registry := defaultTables })
  else (st.registry, st)

/-- `table_name.lower().replace(' ', '_')`, character by character (the
pattern is a single character, and lower-casing and the space map act on
disjoint characters, so the order of the two passes is immaterial). -/
def collName (tableName : String) : String :=
  underscoreLower tableName

/-- The per-project provisioning loop of `create_table`: every project the
new table is associated with gets an empty row-set with the declared
columns (when there are any). -/
def provisionProjects : List String → List String → String → List String →
    (Option String × String → DF) → (Option String × String → DF)
  | [], _, _, _, d => d
  | p :: ps, assoc, coll, cols, d =>
    let d2 :=
      if ("All" ∈ assoc || p ∈ assoc) && !cols.isEmpty then
        putData d (some p, coll) ⟨cols, []⟩
      else d
    provisionProjects ps assoc coll cols d2

/-- `create_table(name, description, fields, associated_projects)`;
`now` is the `datetime.now()` timestamp of the created row. -/
def createTable (st : TMState) (tableName description : String)
    (fields : List FieldConfig) (associatedProjects : Option (List String))
    (now : String) : Bool × TMState :=
  let pr := getAllTables st
  let tables := pr.1
  let st1 := pr.2
  if tableName ∈ tables.map (fun t => t.table_name) then (false, st1)
  else
    let assoc := associatedProjects.getD ["All"]
    let newTd : TableDef := ⟨tableName, description, fields, now, "user-created", some assoc⟩
    let st2 := { st1 with registry := tables ++ [newTd] }
    let cols := (fields.map (fun f => f.name)).filter (fun n => !(n == ""))
    (true, { st2 with
      data := provisionProjects st2.projects assoc (collName tableName) cols st2.data })

/-- The typed default value `add_field_to_table` fills a new column with:
a `Number` default is `float(default)` (`0.0` when the default is empty,
`none` — a `ValueError` — when it does not parse), a `True/False` default is
the string compared to `'true'` lower-cased, anything else is the raw
string. -/
def typedDefault (ftype default : String) : Option Value :=
  if ftype = "Number" then
    if default = "" then some (Value.vFloat 0)
    else (parseNum default).map Value.vFloat
  else if ftype = "True/False" then
    some (Value.vBool (if default = "" then false else default.toLower == "true"))
  else some (Value.vStr default)

/-- The propagation loop of `add_field_to_table`: every project's non-empty
row-set that lacks the column gains it, filled with the typed default;
computing an unparseable `Number` default raises, aborting the loop with
the writes made so far kept (the `False` of the surrounding handler). -/
def propagateAdd : List String → String → String → Option Value →
    (Option String × String → DF) → Bool × (Option String × String → DF)
  | [], _, _, _, d => (true, d)
  | p :: ps, coll, fname, dv, d =>
    let df := d (some p, coll)
    if !df.isEmpty && !(df.cols.contains fname) then
      match dv with
      | none => (false, d)
      | some v => propagateAdd ps coll fname dv (putData d (some p, coll) (addColumn df fname v))
    else propagateAdd ps coll fname dv d

/-- `add_field_to_table(table_name, field_config)`. -/
def addFieldToTable (st : TMState) (tableName : String) (fc : FieldConfig) :
    Bool × TMState :=
  let pr := getAllTables st
  let tables := pr.1
  let st1 := pr.2
  if tables.isEmpty then (false, st1)
  else
    match firstIdx (fun t => t.table_name == tableName) tables with
    | none => (false, st1)
    | some idx =>
      let td := tables.getD idx default
      let fieldNames := (td.fields.map (fun f => f.name)).filter (fun n => !(n == ""))
      if fc.name ∈ fieldNames then (false, st1)
      else
        let st2 := { st1 with registry := tables.set idx { td with fields := td.fields ++ [fc] } }
        let res := propagateAdd st2.projects (collName tableName) fc.name
          (typedDefault fc.ftype fc.default) st2.data
        (res.1, { st2 with data := res.2 })

/-- The propagation loop of `delete_field_from_table`: the column is dropped
from every project's non-empty row-set that has it. -/
def propagateDrop : List String → String → String →
    (Option String × String → DF) → (Option String × String → DF)
  | [], _, _, d => d
  | p :: ps, coll, fname, d =>
    let df := d (some p, coll)
    if !df.isEmpty && df.cols.contains fname then
      propagateDrop ps coll fname (putData d (some p, coll) (dropColumn df fname))
    else propagateDrop ps coll fname d

/-- `delete_field_from_table(table_name, field_name)`. -/
def deleteFieldFromTable (st : TMState) (tableName fieldName : String) :
    Bool × TMState :=
  let pr := getAllTables st
  let tables := pr.1
  let st1 := pr.2
  if tables.isEmpty then (false, st1)
  else
    match firstIdx (fun t => t.table_name == tableName) tables with
    | none => (false, st1)
    | some idx =>
      let td := tables.getD idx default
      let updated := td.fields.filter (fun f => !(f.name == fieldName))
      if updated.length = td.fields.length then (false, st1)
      else
        let st2 := { st1 with registry := tables.set idx { td with fields := updated } }
        (true, { st2 with
          data := propagateDrop st2.projects (collName tableName) fieldName st2.data })

/-- `df.iloc[i, df.columns.get_loc(c)] = v` guarded by
`c in df.columns`. -/
def setCell (df : DF) (i : Nat) (c : String) (v : Value) : DF :=
  match colIndex df.cols c with
  | none => df
  | some j => { df with rows := df.rows.set i ((df.rows.getD i []).set j v) }

/-- The update loop of `update_record`: each patch entry whose key is an
existing column overwrites that cell of row `i`. -/
def applyPatch (df : DF) (i : Nat) (patch : List (String × Value)) : DF :=
  patch.foldl (fun acc kv => setCell acc i kv.1 kv.2) df

/-- `update_record(project_name, table_name, record_idx, updated_data)`. -/
def updateRecord (st : TMState) (project : Option String) (tableName : String)
    (idx : Nat) (patch : List (String × Value)) : Bool × TMState :=
  let k := (project, collName tableName)
  let df := st.data k
  if df.isEmpty = true ∨ df.rows.length ≤ idx then (false, st)
  else (true, { st with data := putData st.data k (applyPatch df idx patch) })

/-- `delete_record(project_name, table_name, record_idx)`: drop row `idx`
and `reset_index(drop=True)`. -/
def deleteRecord (st : TMState) (project : Option String) (tableName : String)
    (idx : Nat) : Bool × TMState :=
  let k := (project, collName tableName)
  let df := st.data k
  if df.isEmpty = true ∨ df.rows.length ≤ idx then (false, st)
  else (true, { st with data := putData st.data k { df with rows := df.rows.eraseIdx idx } })

/-! ## Authentication (`utils/auth_manager.py`) -/

/-- The columns of one `users` row that `authenticate_user` consults. -/
structure UserRow where
  username : String
  passwordHash : String
  status : String
deriving DecidableEq, Repr, Inhabited

/-- `initialize_default_users`' three accounts, given the digest function
(`_hash_password`); only the consulted columns are modelled. -/
def defaultUsers (hash : String → String) : List UserRow :=
  [⟨"admin", hash "admin123", "Active"⟩,
   ⟨"manager1", hash "manager123", "Active"⟩,
   ⟨"manager2", hash "manager123", "Active"⟩,
   ⟨"viewer", hash "viewer123", "Active"⟩]

/-- `authenticate_user(username, password)`: an empty users row-set is first
replaced by the defaults; then the first row matching the username must
exist, its stored hash must equal the digest of the supplied password, and
its status must be exactly `'Active'`. -/
def authenticateUser (hash : String → String) (users : List UserRow)
    (username password : String) : Bool :=
  let users := if users.isEmpty then defaultUsers hash else users
  match users.find? (fun u => u.username == username) with
  | none => false
  | some u =>
    if u.passwordHash == hash password then
      if u.status == "Active" then true else false
    else false

/-- The effect of one `add_field_to_table` propagation step on one stored
row-set: a non-empty frame lacking the column gains it with the default
value, anything else is untouched. -/
def addStep (fname : String) (v : Value) (df : DF) : DF :=
  if !df.isEmpty && !(df.cols.contains fname) then addColumn df fname v else df

/-- The effect of one `delete_field_from_table` propagation step on one
stored row-set: a non-empty frame having the column loses it, anything else
is untouched. -/
def dropStep (fname : String) (df : DF) : DF :=
  if !df.isEmpty && df.cols.contains fname then dropColumn df fname else df

/-! ## Concrete states used to instantiate the theorems -/

/-- A two-row, one-column frame. -/
def dfTwoRows : DF := ⟨["a"], [[Value.vStr "x"], [Value.vStr "y"]]⟩

/-- A state storing `dfTwoRows` under the global `t` row-set. -/
def stTwoRows : TMState :=
  ⟨[], [], fun k => if k = (none, "t") then dfTwoRows else emptyDF⟩

/-- A state whose registry holds exactly one definition named `T`. -/
def stOneTable : TMState :=
  ⟨[⟨"T", "d", [], "", "user-created", some ["All"]⟩], [], fun _ => emptyDF⟩

/-- A state with nothing stored at all. -/
def stBlank : TMState := ⟨[], [], fun _ => emptyDF⟩

/-- A two-column, two-row frame. -/
def dfGrid : DF :=
  ⟨["a", "b"], [[Value.vStr "x", Value.vStr "y"], [Value.vStr "z", Value.vStr "w"]]⟩

/-- A state storing `dfGrid` under project `P`'s `t` row-set. -/
def stGrid : TMState :=
  ⟨[], [], fun k => if k = (some "P", "t") then dfGrid else emptyDF⟩

/-- A patch touching the existing column `b` and the absent column `zz`. -/
def patchGrid : List (String × Value) := [("b", Value.vStr "q"), ("zz", Value.vStr "n")]

/-- Registry with table `T` (single `Text` field `a`) associated with every
project, one project `P` whose `t` row-set is provisioned empty with column
`a`. -/
def stEmptyRowSet : TMState :=
  { registry := [⟨"T", "d", [⟨"a", "Text", true, ""⟩], "", "user-created", some ["All"]⟩],
    projects := ["P"],
    data := fun k => if k = (some "P", "t") then ⟨["a"], []⟩ else emptyDF }

/-- Registry with table `T` (single `Text` field `a`) associated with every
project, one project `P` whose stored `t` row-set has drifted: it already
carries a column `b` that is not in the registry definition. -/
def stDrift : TMState :=
  { registry := [⟨"T", "d", [⟨"a", "Text", true, ""⟩], "", "user-created", some ["All"]⟩],
    projects := ["P"],
    data := fun k =>
      if k = (some "P", "t") then ⟨["a", "b"], [[Value.vStr "x", Value.vStr "y"]]⟩
      else emptyDF }

/-- A `Text` field named `b`. -/
def fcB : FieldConfig := ⟨"b", "Text", true, ""⟩

/-- Registry with table `T` (single `Text` field `a`), one project `P` whose
`t` row-set holds one row under column `a`. -/
def stOneRow : TMState :=
  { registry := [⟨"T", "d", [⟨"a", "Text", true, ""⟩], "", "user-created", some ["All"]⟩],
    projects := ["P"],
    data := fun k => if k = (some "P", "t") then ⟨["a"], [[Value.vStr "x"]]⟩ else emptyDF }

/-- A MongoDB state whose `p_t` collection holds one document. -/
def msOne : MStore :=
  fun k => if k = "p_t" then ⟨["a"], [[Value.vStr "x"]]⟩ else emptyDF

/-- The MongoDB state with no documents anywhere. -/
def msBlank : MStore := fun _ => emptyDF

/-! ## Basic lemmas -/

theorem set_self_of_getElem? {α : Type} :
    ∀ (l : List α) (i : Nat) (a : α), l[i]? = some a → l.set i a = l
  | [], i, a, h => by simp at h
  | x :: xs, 0, a, h => by
    simp only [List.getElem?_cons_zero, Option.some.injEq] at h
    simp [List.set, h]
  | x :: xs, i + 1, a, h => by
    simp only [List.getElem?_cons_succ] at h
    simp [List.set, set_self_of_getElem? xs i a h]

theorem firstIdx_getElem? {α : Type} {p : α → Bool} :
    ∀ {l : List α} {i : Nat}, firstIdx p l = some i → ∃ a, l[i]? = some a ∧ p a = true := by
  intro l
  induction l with
  | nil => intro i h; simp [firstIdx] at h
  | cons x xs ih =>
    intro i h
    by_cases hx : p x
    · simp only [firstIdx, hx, if_pos, Option.some.injEq] at h
      subst h
      exact ⟨x, by simp, hx⟩
    · simp only [firstIdx, hx, Bool.false_eq_true, if_neg] at h
      cases hfx : firstIdx p xs with
      | none => rw [hfx] at h; simp at h
      | some j =>
        rw [hfx] at h
        simp at h
        subst h
        obtain ⟨a, ha, hpa⟩ := ih hfx
        exact ⟨a, by simpa using ha, hpa⟩

theorem firstIdx_ne_nil {α : Type} {p : α → Bool} {l : List α} {i : Nat}
    (h : firstIdx p l = some i) : l ≠ [] := by
  intro hnil; subst hnil; simp [firstIdx] at h

theorem firstIdx_set {α : Type} {p : α → Bool} :
    ∀ {l : List α} {i : Nat} {a : α}, firstIdx p l = some i → p a = true →
      firstIdx p (l.set i a) = some i := by
  intro l
  induction l with
  | nil => intro i a h _; simp [firstIdx] at h
  | cons x xs ih =>
    intro i a h ha
    by_cases hx : p x
    · simp only [firstIdx, hx, if_pos, Option.some.injEq] at h
      subst h
      simp [List.set, firstIdx, ha]
    · simp only [firstIdx, hx, Bool.false_eq_true, if_neg] at h
      cases hfx : firstIdx p xs with
      | none => rw [hfx] at h; simp at h
      | some j =>
        rw [hfx] at h
        simp at h
        subst h
        simp [List.set, firstIdx, hx, ih hfx ha]

theorem getAllTables_of_ne_nil {st : TMState} (h : st.registry ≠ []) :
    getAllTables st = (st.registry, st) := by
  simp [getAllTables, List.isEmpty_eq_false.mpr h]

theorem colIndex_getElem? : ∀ {cols : List String} {c : String} {j : Nat},
    colIndex cols c = some j → cols[j]? = some c := by
  intro cols
  induction cols with
  | nil => intro c j h; simp [colIndex] at h
  | cons x xs ih =>
    intro c j h
    by_cases hx : x == c
    · simp only [colIndex, hx, if_pos, Option.some.injEq] at h
      subst h
      simpa using beq_iff_eq.mp hx
    · simp only [colIndex, hx, Bool.false_eq_true, if_neg] at h
      cases hfx : colIndex xs c with
      | none => rw [hfx] at h; simp at h
      | some k =>
        rw [hfx] at h
        simp at h
        subst h
        simpa using ih hfx

theorem colIndex_eq_none : ∀ {cols : List String} {c : String},
    cols.contains c = false → colIndex cols c = none := by
  intro cols
  induction cols with
  | nil => intro c _; rfl
  | cons x xs ih =>
    intro c h
    simp only [List.contains_cons, Bool.or_eq_false_iff] at h
    have hx : (x == c) = false := by
      rcases h with ⟨h1, _⟩
      rw [beq_eq_false_iff_ne] at h1 ⊢
      exact fun hxc => h1 hxc.symm
    simp [colIndex, hx, ih h.2]

/-! ## Lemmas about `setCell` and `applyPatch` -/

theorem setCell_cols (df : DF) (i : Nat) (c : String) (v : Value) :
    (setCell df i c v).cols = df.cols := by
  unfold setCell; cases colIndex df.cols c <;> rfl

theorem setCell_rows_length (df : DF) (i : Nat) (c : String) (v : Value) :
    (setCell df i c v).rows.length = df.rows.length := by
  unfold setCell; cases colIndex df.cols c
  · rfl
  · simp [List.length_set]

theorem setCell_row_ne (df : DF) (i : Nat) (c : String) (v : Value) (j : Nat)
    (h : j ≠ i) : (setCell df i c v).rows[j]? = df.rows[j]? := by
  unfold setCell; cases colIndex df.cols c
  · rfl
  · exact List.getElem?_set_ne (Ne.symm h)

theorem setCell_no_col (df : DF) (i : Nat) (c : String) (v : Value)
    (h : df.cols.contains c = false) : setCell df i c v = df := by
  unfold setCell; rw [colIndex_eq_none h]

theorem setCell_cell_ne (df : DF) (i : Nat) (c : String) (v : Value) (jc : Nat)
    (hi : i < df.rows.length) (hc : df.cols[jc]? ≠ some c) :
    ((setCell df i c v).rows.getD i [])[jc]? = (df.rows.getD i [])[jc]? := by
  unfold setCell
  cases hco : colIndex df.cols c with
  | none => rfl
  | some j =>
    have hcj : df.cols[j]? = some c := colIndex_getElem? hco
    have hne : j ≠ jc := fun hh => hc (hh ▸ hcj)
    show ((df.rows.set i ((df.rows.getD i []).set j v)).getD i [])[jc]?
        = (df.rows.getD i [])[jc]?
    rw [List.getD_eq_getElem?_getD, List.getElem?_set_self (by simpa using hi),
      Option.getD_some]
    exact List.getElem?_set_ne hne

theorem applyPatch_cons (df : DF) (i : Nat) (kv : String × Value)
    (patch : List (String × Value)) :
    applyPatch df i (kv :: patch) = applyPatch (setCell df i kv.1 kv.2) i patch := rfl

theorem applyPatch_cols : ∀ (patch : List (String × Value)) (df : DF) (i : Nat),
    (applyPatch df i patch).cols = df.cols
  | [], _, _ => rfl
  | kv :: patch, df, i => by
    rw [applyPatch_cons, applyPatch_cols patch, setCell_cols]

theorem applyPatch_rows_length : ∀ (patch : List (String × Value)) (df : DF) (i : Nat),
    (applyPatch df i patch).rows.length = df.rows.length
  | [], _, _ => rfl
  | kv :: patch, df, i => by
    rw [applyPatch_cons, applyPatch_rows_length patch, setCell_rows_length]

theorem applyPatch_row_ne : ∀ (patch : List (String × Value)) (df : DF) (i j : Nat),
    j ≠ i → (applyPatch df i patch).rows[j]? = df.rows[j]?
  | [], _, _, _, _ => rfl
  | kv :: patch, df, i, j, h => by
    rw [applyPatch_cons, applyPatch_row_ne patch _ _ _ h, setCell_row_ne _ _ _ _ _ h]

theorem applyPatch_cell_ne : ∀ (patch : List (String × Value)) (df : DF) (i jc : Nat),
    i < df.rows.length → (∀ kv ∈ patch, df.cols[jc]? ≠ some kv.1) →
    ((applyPatch df i patch).rows.getD i [])[jc]? = (df.rows.getD i [])[jc]?
  | [], _, _, _, _, _ => rfl
  | kv :: patch, df, i, jc, hi, hc => by
    rw [applyPatch_cons]
    have hi2 : i < (setCell df i kv.1 kv.2).rows.length := by
      rw [setCell_rows_length]; exact hi
    have hc2 : ∀ kv2 ∈ patch, (setCell df i kv.1 kv.2).cols[jc]? ≠ some kv2.1 := by
      intro kv2 hmem
      rw [setCell_cols]
      exact hc kv2 (List.mem_cons_of_mem _ hmem)
    rw [applyPatch_cell_ne patch _ _ _ hi2 hc2,
      setCell_cell_ne df i kv.1 kv.2 jc hi (hc kv (List.mem_cons_self _ _))]

theorem applyPatch_no_col : ∀ (patch : List (String × Value)) (df : DF) (i : Nat),
    (∀ kv ∈ patch, df.cols.contains kv.1 = false) → applyPatch df i patch = df
  | [], _, _, _ => rfl
  | kv :: patch, df, i, h => by
    rw [applyPatch_cons, setCell_no_col df i kv.1 kv.2 (h kv (List.mem_cons_self _ _))]
    exact applyPatch_no_col patch df i (fun kv2 hmem => h kv2 (List.mem_cons_of_mem _ hmem))

/-! ## Guard lemma for positional record operations -/

theorem record_guard_false {df : DF} {idx : Nat} (hcols : df.cols ≠ [])
    (hidx : idx < df.rows.length) : ¬(df.isEmpty = true ∨ df.rows.length ≤ idx) := by
  have hrows : df.rows ≠ [] := by
    intro h0; rw [h0] at hidx; simp at hidx
  intro h
  rcases h with h | h
  · simp [DF.isEmpty, List.isEmpty_eq_false.mpr hcols, List.isEmpty_eq_false.mpr hrows] at h
  · omega

/-! ## Claims about positional record CRUD (C5, C8, C10) -/

/-- Claim C5: for every project `p`, table `t` and valid index
`i < rows`, `delete_record(p, t, i)` succeeds, removes exactly the row at
position `i` (the stored row-set is rewritten with `i` erased, one row
fewer), and the remaining rows are re-indexed contiguously from 0 — rows
before `i` keep their position, rows after `i` shift down by one —
preserving relative order.  (`cols ≠ []` records that a stored row-set with
rows has columns; a columnless frame counts as `empty` to pandas and none of
the storage paths produces one with rows.) -/
theorem claim_C5_delete_one_row (st : TMState) (project : Option String)
    (tableName : String) (idx : Nat) (df : DF)
    (hdf : st.data (project, collName tableName) = df)
    (hcols : df.cols ≠ []) (hidx : idx < df.rows.length) :
    deleteRecord st project tableName idx =
      (true, { st with data := (putData st.data (project, collName tableName)
        { df with rows := df.rows.eraseIdx idx }) }) ∧
    (df.rows.eraseIdx idx).length = df.rows.length - 1 ∧
    (∀ j, j < idx → (df.rows.eraseIdx idx)[j]? = df.rows[j]?) ∧
    (∀ j, idx ≤ j → (df.rows.eraseIdx idx)[j]? = df.rows[j + 1]?) := by
  refine ⟨?_, ?_, ?_, ?_⟩
  · simp only [deleteRecord, hdf]
    rw [if_neg (record_guard_false hcols hidx)]
  · simp [List.length_eraseIdx, hidx]
  · intro j hj
    rw [List.getElem?_eraseIdx, if_pos hj]
  · intro j hj
    rw [List.getElem?_eraseIdx, if_neg (by omega)]

/-- Witness for C5 at a concrete two-row frame: deleting row 0 rewrites the
row-set to the single remaining row. -/
theorem claim_C5_witness :
    deleteRecord stTwoRows none "t" 0 =
      (true, { stTwoRows with data := (putData stTwoRows.data (none, collName "t")
        { dfTwoRows with rows := dfTwoRows.rows.eraseIdx 0 }) }) :=
  (claim_C5_delete_one_row stTwoRows none "t" 0 dfTwoRows rfl (by decide) (by decide)).1

/-- Claim C8: for every project, table and out-of-range index (empty stored
row-set, or index at least the row count), `update_record` and
`delete_record` both return `False` and leave the whole state — in
particular the stored row-set — unchanged: no write is issued on this
failure path. -/
theorem claim_C8_out_of_range (st : TMState) (project : Option String)
    (tableName : String) (idx : Nat) (patch : List (String × Value)) (df : DF)
    (hdf : st.data (project, collName tableName) = df)
    (h : df.rows.isEmpty = true ∨ df.rows.length ≤ idx) :
    updateRecord st project tableName idx patch = (false, st) ∧
    deleteRecord st project tableName idx = (false, st) := by
  have hguard : df.isEmpty = true ∨ df.rows.length ≤ idx := by
    rcases h with h | h
    · left; simp [DF.isEmpty, h]
    · right; exact h
  constructor
  · simp only [updateRecord, hdf]
    rw [if_pos hguard]
  · simp only [deleteRecord, hdf]
    rw [if_pos hguard]

/-- Witness for C8 at a concrete state: index 0 on an empty row-set fails
and changes nothing. -/
theorem claim_C8_witness :
    updateRecord stBlank none "t" 0 [] = (false, stBlank) ∧
    deleteRecord stBlank none "t" 0 = (false, stBlank) :=
  claim_C8_out_of_range stBlank none "t" 0 [] emptyDF rfl (Or.inl rfl)

/-- Claim C10: a successful `update_record(p, t, i, patch)` writes back the
old row-set with only row `i` patched: the result is `True`; the column
list is unchanged (no new column is created for unknown patch keys); the
row count is unchanged; every row other than `i` is unchanged; within row
`i`, every position whose column label is not a patch key keeps its value;
a patch touching no existing column leaves the row-set exactly as it was;
and no other stored row-set is touched. -/
theorem claim_C10_update_frame (st : TMState) (project : Option String)
    (tableName : String) (idx : Nat) (patch : List (String × Value)) (df : DF)
    (hdf : st.data (project, collName tableName) = df)
    (hcols : df.cols ≠ []) (hidx : idx < df.rows.length) :
    updateRecord st project tableName idx patch =
      (true, { st with data := (putData st.data (project, collName tableName)
        (applyPatch df idx patch)) }) ∧
    (applyPatch df idx patch).cols = df.cols ∧
    (applyPatch df idx patch).rows.length = df.rows.length ∧
    (∀ j, j ≠ idx → (applyPatch df idx patch).rows[j]? = df.rows[j]?) ∧
    (∀ jc : Nat, (∀ kv ∈ patch, df.cols[jc]? ≠ some kv.1) →
      ((applyPatch df idx patch).rows.getD idx [])[jc]? = (df.rows.getD idx [])[jc]?) ∧
    ((∀ kv ∈ patch, df.cols.contains kv.1 = false) → applyPatch df idx patch = df) ∧
    (∀ k, k ≠ (project, collName tableName) →
      (updateRecord st project tableName idx patch).2.data k = st.data k) := by
  have hres : updateRecord st project tableName idx patch =
      (true, { st with data := (putData st.data (project, collName tableName)
        (applyPatch df idx patch)) }) := by
    simp only [updateRecord, hdf]
    rw [if_neg (record_guard_false hcols hidx)]
  refine ⟨hres, applyPatch_cols patch df idx, applyPatch_rows_length patch df idx,
    fun j hj => applyPatch_row_ne patch df idx j hj,
    fun jc hjc => applyPatch_cell_ne patch df idx jc hidx hjc,
    fun hnone => applyPatch_no_col patch df idx hnone, ?_⟩
  intro k hk
  rw [hres]
  simp [putData, hk]

/-- Witness for C10 at a concrete two-column frame with a patch hitting one
existing and one absent column. -/
theorem claim_C10_witness :
    updateRecord stGrid (some "P") "t" 0 patchGrid =
      (true, { stGrid with data := (putData stGrid.data (some "P", collName "t")
        (applyPatch dfGrid 0 patchGrid)) }) :=
  (claim_C10_update_frame stGrid (some "P") "t" 0 patchGrid dfGrid rfl
    (by decide) (by decide)).1

/-! ## Claim about duplicate table creation (C4) -/

/-- Claim C4: when a table name is already present in the registry (exactly
one definition carries it, as after a successful first `create_table`), a
second `create_table` call with that name returns `False`, leaves the whole
state — in particular the registry — unchanged, and the registry still holds
exactly one definition for that name. -/
theorem claim_C4_create_duplicate (st : TMState) (tableName description : String)
    (fields : List FieldConfig) (associatedProjects : Option (List String)) (now : String)
    (h : st.registry.countP (fun td => td.table_name == tableName) = 1) :
    createTable st tableName description fields associatedProjects now = (false, st) ∧
    (createTable st tableName description fields associatedProjects now).2.registry.countP
      (fun td => td.table_name == tableName) = 1 := by
  have hpos : 0 < st.registry.countP (fun td => td.table_name == tableName) := by omega
  obtain ⟨td, htd, hp⟩ := List.countP_pos_iff.mp hpos
  have hne : st.registry ≠ [] := List.ne_nil_of_mem htd
  have hmem : tableName ∈ st.registry.map (fun t => t.table_name) :=
    List.mem_map.mpr ⟨td, htd, beq_iff_eq.mp hp⟩
  have hres : createTable st tableName description fields associatedProjects now
      = (false, st) := by
    simp only [createTable, getAllTables_of_ne_nil hne]
    rw [if_pos hmem]
  exact ⟨hres, by rw [hres]; exact h⟩

/-- Witness for C4: re-creating the already-registered table `T` fails and
leaves its single definition in place. -/
theorem claim_C4_witness :
    createTable stOneTable "T" "again" [] none "2024-01-01" = (false, stOneTable) ∧
    (createTable stOneTable "T" "again" [] none "2024-01-01").2.registry.countP
      (fun td => td.table_name == "T") = 1 :=
  claim_C4_create_duplicate stOneTable "T" "again" [] none "2024-01-01" (by decide)

/-! ## Claim about authentication (C7) -/

/-- Claim C7: against the effective users row-set (the stored one, or the
default accounts when it is empty), whenever the first row matching a
username exists, `authenticate_user` returns `False` if the digest of the
supplied password differs from the stored hash, and returns `False` if the
row's status is not exactly `Active`, even with the correct password. -/
theorem claim_C7_reject (hash : String → String) (users : List UserRow)
    (username password : String) (u : UserRow)
    (hfind : (if users.isEmpty then defaultUsers hash else users).find?
      (fun r => r.username == username) = some u) :
    (u.passwordHash ≠ hash password →
      authenticateUser hash users username password = false) ∧
    (u.status ≠ "Active" → authenticateUser hash users username password = false) := by
  constructor
  · intro hpw
    simp only [authenticateUser, hfind]
    rw [if_neg (by simpa using hpw)]
  · intro hst
    simp only [authenticateUser, hfind]
    by_cases hpw : u.passwordHash == hash password
    · rw [if_pos hpw, if_neg (by simpa using hst)]
    · rw [if_neg hpw]

/-- Witness for C7: a user stored with a non-matching hash and status
`Inactive` is rejected (both rejection modes at one concrete input). -/
theorem claim_C7_witness :
    (authenticateUser (fun _ => "h2") [⟨"bob", "h1", "Inactive"⟩] "bob" "pw" = false) ∧
    (authenticateUser (fun _ => "h2") [⟨"bob", "h1", "Inactive"⟩] "bob" "pw" = false) :=
  ⟨(claim_C7_reject (fun _ => "h2") [⟨"bob", "h1", "Inactive"⟩] "bob" "pw"
      ⟨"bob", "h1", "Inactive"⟩ (by decide)).1 (by decide),
   (claim_C7_reject (fun _ => "h2") [⟨"bob", "h1", "Inactive"⟩] "bob" "pw"
      ⟨"bob", "h1", "Inactive"⟩ (by decide)).2 (by decide)⟩

/-! ## Lemmas about the MongoDB cleaning pass and write path -/

theorem cleanColumn_length (col : List Value) :
    (cleanColumn col).length = col.length := by
  simp only [cleanColumn, colStrings]
  split <;> simp

theorem cleanDF_cols (df : DF) : (cleanDF df).cols = df.cols := rfl

theorem cleanDF_rows_length (df : DF) : (cleanDF df).rows.length = df.rows.length := by
  simp [cleanDF]

theorem cleanDF_isEmpty_false {df : DF} (h : df.isEmpty = false) :
    (cleanDF df).isEmpty = false := by
  simp only [DF.isEmpty, Bool.or_eq_false_iff] at h ⊢
  refine ⟨?_, h.2⟩
  rw [List.isEmpty_eq_false] at h ⊢
  simp only [cleanDF, ne_eq, List.map_eq_nil_iff, List.range_eq_nil]
  intro h0
  exact h.1 (List.length_eq_zero.mp h0)

theorem mongoWrite_nonempty (s : MStore) (project : Option String)
    (collectionName : String) (df : DF) (h : df.isEmpty = false) :
    mongoWrite s project collectionName df =
      (true, fun k => if k = mongoKey project collectionName then cleanDF df else s k) := by
  unfold mongoWrite
  rw [if_neg (by simp [cleanDF_isEmpty_false h])]

theorem cleanDF_rows_not_isEmpty {df : DF} (h : df.isEmpty = false) :
    (cleanDF df).rows.isEmpty = false := by
  simp only [DF.isEmpty, Bool.or_eq_false_iff] at h
  rw [List.isEmpty_eq_false] at h ⊢
  simp only [cleanDF, ne_eq, List.map_eq_nil_iff, List.range_eq_nil]
  intro h0
  exact h.1 (List.length_eq_zero.mp h0)

theorem mongoRead_write (s : MStore) (project : Option String)
    (collectionName : String) (df : DF) (h : df.isEmpty = false) :
    mongoRead (mongoWrite s project collectionName df).2 project collectionName
      = cleanDF df := by
  rw [mongoWrite_nonempty s project collectionName df h]
  simp [mongoRead, cleanDF_rows_not_isEmpty h]

/-! ## Claims about the storage round trip and overwrite (C2, C3) -/

/-- Claim C2 (counterexample to the claim as stated): the round trip is not
column-set preserving for every row-set.  Writing the 0-row frame with
column `a` inserts nothing (the cleaned frame is `empty`), so the subsequent
read of the untouched collection returns `pd.DataFrame()`: the row count
matches (0), but the column set does not (`a` is lost). -/
theorem claim_C2_counterexample :
    (mongoRead (mongoWrite msBlank (some "p") "t" ⟨["a"], []⟩).2 (some "p") "t").rows.length
        = (DF.mk ["a"] []).rows.length ∧
    "a" ∈ (DF.mk ["a"] []).cols ∧
    "a" ∉ (mongoRead (mongoWrite msBlank (some "p") "t" ⟨["a"], []⟩).2 (some "p") "t").cols := by
  decide

/-- Claim C2 as amended: for every non-empty row-set (at least one row and
one column — pandas `empty` is false), `write_dataframe(p, t, df)` followed
by `read_dataframe(p, t)` returns a row-set with exactly the same column
list and the same row count as `df` (the values being the cleaned,
type-coerced ones); for empty `df` the read instead returns whatever the
collection previously held. -/
theorem claim_C2_round_trip (s : MStore) (project : Option String)
    (collectionName : String) (df : DF) (h : df.isEmpty = false) :
    (mongoRead (mongoWrite s project collectionName df).2 project collectionName).cols
        = df.cols ∧
    (mongoRead (mongoWrite s project collectionName df).2 project collectionName).rows.length
        = df.rows.length := by
  rw [mongoRead_write s project collectionName df h]
  exact ⟨cleanDF_cols df, cleanDF_rows_length df⟩

/-- Witness for the amended C2 at a one-row frame. -/
theorem claim_C2_witness :
    (mongoRead (mongoWrite msBlank (some "p") "u" ⟨["a"], [[Value.vStr "x"]]⟩).2
        (some "p") "u").cols = (DF.mk ["a"] [[Value.vStr "x"]]).cols ∧
    (mongoRead (mongoWrite msBlank (some "p") "u" ⟨["a"], [[Value.vStr "x"]]⟩).2
        (some "p") "u").rows.length = (DF.mk ["a"] [[Value.vStr "x"]]).rows.length :=
  claim_C2_round_trip msBlank (some "p") "u" ⟨["a"], [[Value.vStr "x"]]⟩ rfl

/-- Claim C3 (counterexample to the claim as stated): writing an empty
row-set is not a full overwrite.  Over a collection holding one document,
`write_dataframe` with the empty frame returns `True` but skips the
`delete_many`/`insert_many` step, so the old document survives and the
stored row-set is not the written (empty) one. -/
theorem claim_C3_counterexample :
    (mongoWrite msOne (some "p") "t" emptyDF).1 = true ∧
    mongoRead (mongoWrite msOne (some "p") "t" emptyDF).2 (some "p") "t"
        = ⟨["a"], [[Value.vStr "x"]]⟩ ∧
    mongoRead (mongoWrite msOne (some "p") "t" emptyDF).2 (some "p") "t" ≠ emptyDF := by
  decide

/-- Claim C3 as amended: for every non-empty row-set `df`, `write_dataframe`
has full-overwrite semantics — it returns `True` and the stored row-set for
the collection becomes exactly the cleaned `df`, with no remnant of the
previously stored rows and no other collection touched; but when `df` is
empty the call still returns `True` while leaving the collection's previous
documents in place (only the local backup file is overwritten). -/
theorem claim_C3_full_overwrite (s : MStore) (project : Option String)
    (collectionName : String) (df : DF) (h : df.isEmpty = false) :
    (mongoWrite s project collectionName df).1 = true ∧
    (mongoWrite s project collectionName df).2 (mongoKey project collectionName)
        = cleanDF df ∧
    (∀ k, k ≠ mongoKey project collectionName →
      (mongoWrite s project collectionName df).2 k = s k) := by
  rw [mongoWrite_nonempty s project collectionName df h]
  refine ⟨rfl, by simp, fun k hk => by simp [hk]⟩

/-- Witness for the amended C3 at a one-row frame over a non-empty
collection. -/
theorem claim_C3_witness :
    (mongoWrite msOne (some "p") "t" ⟨["b"], [[Value.vStr "z"]]⟩).1 = true ∧
    (mongoWrite msOne (some "p") "t" ⟨["b"], [[Value.vStr "z"]]⟩).2
        (mongoKey (some "p") "t") = cleanDF ⟨["b"], [[Value.vStr "z"]]⟩ :=
  ⟨(claim_C3_full_overwrite msOne (some "p") "t" ⟨["b"], [[Value.vStr "z"]]⟩ rfl).1,
   (claim_C3_full_overwrite msOne (some "p") "t" ⟨["b"], [[Value.vStr "z"]]⟩ rfl).2.1⟩

/-! ## Lemmas relating `cleanDF` to per-column cleaning (for C9) -/

theorem map_getD_range {α : Type} : ∀ (l : List α) (d : α),
    (List.range l.length).map (fun i => l.getD i d) = l := by
  intro l d
  induction l with
  | nil => rfl
  | cons x xs ih =>
    rw [List.length_cons, List.range_succ_eq_map, List.map_cons, List.map_map]
    refine congrArg₂ _ rfl ?_
    have h2 : List.map ((fun i => (x :: xs).getD i d) ∘ Nat.succ) (List.range xs.length)
        = List.map (fun i => xs.getD i d) (List.range xs.length) :=
      List.map_congr_left (fun i _ => by simp [List.getD])
    exact h2.trans ih

theorem getColumn_cleanDF (df : DF) (j : Nat) (hj : j < df.cols.length) :
    getColumn (cleanDF df) j = cleanColumn (getColumn df j) := by
  have hlen : (cleanColumn (getColumn df j)).length = df.rows.length := by
    rw [cleanColumn_length]; simp [getColumn]
  unfold getColumn cleanDF
  rw [List.map_map]
  have hmid : ∀ i : Nat,
      ((((List.range df.cols.length).map
          (fun j2 => cleanColumn (df.rows.map (fun r => r.getD j2 Value.na)))).map
            (fun cv => cv.getD i Value.na)).getD j Value.na)
        = (cleanColumn (df.rows.map (fun r => r.getD j Value.na))).getD i Value.na := by
    intro i
    rw [List.getD_eq_getElem?_getD, List.getElem?_map, List.getElem?_map,
      List.getElem?_range hj]
    rfl
  calc (List.range df.rows.length).map
        ((fun r => r.getD j Value.na) ∘ fun i =>
          ((List.range df.cols.length).map
            (fun j2 => cleanColumn (df.rows.map (fun r => r.getD j2 Value.na)))).map
              (fun cv => cv.getD i Value.na))
      = (List.range df.rows.length).map
          (fun i => (cleanColumn (df.rows.map (fun r => r.getD j Value.na))).getD i Value.na) := by
        apply List.map_congr_left
        intro i _
        exact hmid i
    _ = cleanColumn (df.rows.map (fun r => r.getD j Value.na)) := by
        rw [← hlen]
        exact map_getD_range _ _

theorem colStrings_no_placeholder (col : List Value) :
    ∀ s ∈ colStrings col, s ∉ placeholders := by
  intro s hs
  simp only [colStrings, List.mem_map] at hs
  obtain ⟨t, ht, rfl⟩ := hs
  by_cases hmem : t ∈ placeholders
  · simp only [if_pos hmem]
    decide
  · simp only [if_neg hmem]
    exact hmem

theorem isNumericColumn_colStrings (col : List Value) :
    isNumericColumn (colStrings col) = true ↔
      ((∃ s ∈ colStrings col, s ≠ "") ∧
       (∀ s ∈ colStrings col, s ≠ "" → (parseNum s).isSome)) := by
  have hfc : (colStrings col).filter (fun s => !(s == "" || s ∈ placeholders))
      = (colStrings col).filter (fun s => !(s == "")) := by
    apply List.filter_congr
    intro s hs
    have h1 := colStrings_no_placeholder col s hs
    simp [h1]
  simp only [isNumericColumn]
  rw [hfc]
  simp only [Bool.and_eq_true, Bool.not_eq_true', List.isEmpty_eq_false, ne_eq,
    List.filter_eq_nil_iff, List.all_eq_true, List.mem_filter]
  constructor
  · rintro ⟨h1, h2⟩
    constructor
    · by_contra hno
      push_neg at hno
      exact h1 (fun a ha => by simp [hno a ha])
    · intro s hs hne
      exact h2 s ⟨hs, by simpa using hne⟩
  · rintro ⟨⟨s0, hs0, hne0⟩, h2⟩
    constructor
    · intro hall
      have := hall s0 hs0
      simp [hne0] at this
    · intro s hs
      rcases hs with ⟨hs, hbs⟩
      exact h2 s hs (by simpa using hbs)

theorem parseNum_zero : parseNum "0" = some 0 := by decide

/-! ## Claim about the cleaning invariant (C9) -/

/-- Claim C9 (counterexample to the claim as stated): a column with no
non-empty value at all — here a single `NaN` cell — vacuously satisfies
"every non-empty value parses as a number", yet the cleaning pass leaves it
as a string column (`''`), not a float column with 0: `_is_numeric_column`
additionally requires at least one non-empty value. -/
theorem claim_C9_counterexample :
    (colStrings (getColumn ⟨["a"], [[Value.na]]⟩ 0)).all
        (fun s => (s == "") || (parseNum s).isSome) = true ∧
    getColumn (cleanDF ⟨["a"], [[Value.na]]⟩) 0 = [Value.vStr ""] ∧
    getColumn (cleanDF ⟨["a"], [[Value.na]]⟩) 0 ≠
      (colStrings (getColumn ⟨["a"], [[Value.na]]⟩ 0)).map
        (fun s => Value.vFloat (if s = "" then 0 else (parseNum s).getD 0)) := by
  decide

/-- Claim C9 as amended: the cleaning pass makes every stored column
uniformly typed — a column with at least one non-empty value (after the
string conversion and placeholder replacement) all of whose non-empty
values parse as numbers becomes entirely float with empty cells becoming 0;
every other column (including all-empty ones) becomes entirely strings with
the placeholders `nan`/`None`/`NaN`/`null` replaced by the empty string. -/
theorem claim_C9_uniform_typing (df : DF) (j : Nat) (hj : j < df.cols.length) :
    ((∃ s ∈ colStrings (getColumn df j), s ≠ "") →
     (∀ s ∈ colStrings (getColumn df j), s ≠ "" → (parseNum s).isSome) →
      getColumn (cleanDF df) j = (colStrings (getColumn df j)).map
        (fun s => Value.vFloat (if s = "" then 0 else (parseNum s).getD 0))) ∧
    ((¬(∃ s ∈ colStrings (getColumn df j), s ≠ "") ∨
      ¬(∀ s ∈ colStrings (getColumn df j), s ≠ "" → (parseNum s).isSome)) →
      getColumn (cleanDF df) j = (colStrings (getColumn df j)).map Value.vStr) := by
  rw [getColumn_cleanDF df j hj]
  constructor
  · intro h1 h2
    have hnum : isNumericColumn (colStrings (getColumn df j)) = true :=
      (isNumericColumn_colStrings (getColumn df j)).mpr ⟨h1, h2⟩
    simp only [cleanColumn]
    rw [if_pos hnum]
    apply List.map_congr_left
    intro s _
    by_cases hs : s = ""
    · simp [hs, parseNum_zero]
    · simp [hs]
  · intro h
    have hnum : isNumericColumn (colStrings (getColumn df j)) = false := by
      by_contra hne
      rw [Bool.not_eq_false] at hne
      have hiff := (isNumericColumn_colStrings (getColumn df j)).mp hne
      rcases h with h | h
      · exact h hiff.1
      · exact h hiff.2
    simp only [cleanColumn]
    rw [if_neg (by simp [hnum])]

/-- Witness for the amended C9 at a one-cell numeric column. -/
theorem claim_C9_witness :
    getColumn (cleanDF ⟨["n"], [[Value.vStr "7"]]⟩) 0 =
      (colStrings (getColumn ⟨["n"], [[Value.vStr "7"]]⟩ 0)).map
        (fun s => Value.vFloat (if s = "" then 0 else (parseNum s).getD 0)) :=
  (claim_C9_uniform_typing ⟨["n"], [[Value.vStr "7"]]⟩ 0 (by decide)).1
    (by decide) (by decide)

/-! ## Lemmas about the schema-propagation loops (for C1, C6) -/

theorem putData_self (d : Option String × String → DF) (k : Option String × String)
    (df : DF) : putData d k df k = df := by
  simp [putData]

theorem putData_ne (d : Option String × String → DF) (k k2 : Option String × String)
    (df : DF) (h : k2 ≠ k) : putData d k df k2 = d k2 := by
  simp [putData, h]

theorem addColumn_contains (df : DF) (f : String) (v : Value) :
    (addColumn df f v).cols.contains f = true := by
  simp [addColumn]

theorem addColumn_not_isEmpty (df : DF) (f : String) (v : Value)
    (h : df.rows.isEmpty = false) : (addColumn df f v).isEmpty = false := by
  simp only [DF.isEmpty, addColumn, Bool.or_eq_false_iff]
  constructor
  · simpa using h
  · simp

theorem dropColumn_not_contains (df : DF) (f : String) :
    (dropColumn df f).cols.contains f = false := by
  rw [Bool.eq_false_iff]
  intro hc
  have h1 : f ∈ (dropColumn df f).cols := by
    simpa using hc
  simp [dropColumn, List.mem_filter] at h1

theorem addStep_stable (f : String) (v : Value) (df : DF) :
    addStep f v (addStep f v df) = addStep f v df := by
  unfold addStep
  by_cases hg : (!df.isEmpty && !(df.cols.contains f)) = true
  · rw [if_pos hg, if_neg]
    simp [addColumn]
  · rw [if_neg hg, if_neg hg]

theorem dropStep_stable (f : String) (df : DF) :
    dropStep f (dropStep f df) = dropStep f df := by
  unfold dropStep
  by_cases hg : (!df.isEmpty && df.cols.contains f) = true
  · rw [if_pos hg, if_neg]
    simp [dropColumn, List.mem_filter]
  · rw [if_neg hg, if_neg hg]

theorem propagateAdd_fst : ∀ (ps : List String) (coll f : String) (v : Value)
    (d : Option String × String → DF), (propagateAdd ps coll f (some v) d).1 = true := by
  intro ps
  induction ps with
  | nil => intro coll f v d; rfl
  | cons p ps ih =>
    intro coll f v d
    simp only [propagateAdd]
    split
    · exact ih coll f v _
    · exact ih coll f v d

theorem propagateAdd_other : ∀ (ps : List String) (coll f : String) (dv : Option Value)
    (d : Option String × String → DF) (k : Option String × String),
    (∀ p ∈ ps, k ≠ (some p, coll)) → (propagateAdd ps coll f dv d).2 k = d k := by
  intro ps
  induction ps with
  | nil => intro coll f dv d k _; rfl
  | cons p ps ih =>
    intro coll f dv d k hk
    simp only [propagateAdd]
    split
    · match dv with
      | none => rfl
      | some v =>
        rw [ih coll f (some v) _ k (fun q hq => hk q (List.mem_cons_of_mem _ hq))]
        exact putData_ne _ _ _ _ (hk p (List.mem_cons_self _ _))
    · exact ih coll f dv d k (fun q hq => hk q (List.mem_cons_of_mem _ hq))

theorem propagateAdd_mem : ∀ (ps : List String) (coll f : String) (v : Value)
    (d : Option String × String → DF) (p : String), p ∈ ps →
    (propagateAdd ps coll f (some v) d).2 (some p, coll)
      = addStep f v (d (some p, coll)) := by
  intro ps
  induction ps with
  | nil => intro coll f v d p hp; simp at hp
  | cons q ps ih =>
    intro coll f v d p hp
    by_cases hpq : p = q
    · subst hpq
      simp only [propagateAdd]
      by_cases hg : (!(d (some p, coll)).isEmpty && !((d (some p, coll)).cols.contains f))
          = true
      · rw [if_pos hg]
        have hkey : putData d (some p, coll) (addColumn (d (some p, coll)) f v)
            (some p, coll) = addColumn (d (some p, coll)) f v := putData_self _ _ _
        by_cases hmem : p ∈ ps
        · rw [ih coll f v _ p hmem, hkey]
          have h1 : addStep f v (d (some p, coll)) = addColumn (d (some p, coll)) f v := by
            unfold addStep; rw [if_pos hg]
          rw [← h1, addStep_stable, h1]
        · rw [propagateAdd_other ps coll f (some v) _ (some p, coll)
            (fun r hr => by simp; intro hre; exact hmem (hre ▸ hr)), hkey]
          unfold addStep; rw [if_pos hg]
      · rw [if_neg hg]
        by_cases hmem : p ∈ ps
        · exact ih coll f v d p hmem
        · rw [propagateAdd_other ps coll f (some v) d (some p, coll)
            (fun r hr => by simp; intro hre; exact hmem (hre ▸ hr))]
          unfold addStep; rw [if_neg hg]
    · have hmem : p ∈ ps := by
        rcases List.mem_cons.mp hp with h | h
        · exact absurd h hpq
        · exact h
      simp only [propagateAdd]
      split
      · rw [ih coll f v _ p hmem]
        congr 1
        exact putData_ne _ _ _ _ (by simp [hpq])
      · exact ih coll f v d p hmem

theorem propagateDrop_other : ∀ (ps : List String) (coll f : String)
    (d : Option String × String → DF) (k : Option String × String),
    (∀ p ∈ ps, k ≠ (some p, coll)) → propagateDrop ps coll f d k = d k := by
  intro ps
  induction ps with
  | nil => intro coll f d k _; rfl
  | cons p ps ih =>
    intro coll f d k hk
    simp only [propagateDrop]
    split
    · rw [ih coll f _ k (fun q hq => hk q (List.mem_cons_of_mem _ hq))]
      exact putData_ne _ _ _ _ (hk p (List.mem_cons_self _ _))
    · exact ih coll f d k (fun q hq => hk q (List.mem_cons_of_mem _ hq))

theorem propagateDrop_mem : ∀ (ps : List String) (coll f : String)
    (d : Option String × String → DF) (p : String), p ∈ ps →
    propagateDrop ps coll f d (some p, coll) = dropStep f (d (some p, coll)) := by
  intro ps
  induction ps with
  | nil => intro coll f d p hp; simp at hp
  | cons q ps ih =>
    intro coll f d p hp
    by_cases hpq : p = q
    · subst hpq
      simp only [propagateDrop]
      by_cases hg : (!(d (some p, coll)).isEmpty && (d (some p, coll)).cols.contains f)
          = true
      · rw [if_pos hg]
        have hkey : putData d (some p, coll) (dropColumn (d (some p, coll)) f)
            (some p, coll) = dropColumn (d (some p, coll)) f := putData_self _ _ _
        by_cases hmem : p ∈ ps
        · rw [ih coll f _ p hmem, hkey]
          have h1 : dropStep f (d (some p, coll)) = dropColumn (d (some p, coll)) f := by
            unfold dropStep; rw [if_pos hg]
          rw [← h1, dropStep_stable, h1]
        · rw [propagateDrop_other ps coll f _ (some p, coll)
            (fun r hr => by simp; intro hre; exact hmem (hre ▸ hr)), hkey]
          unfold dropStep; rw [if_pos hg]
      · rw [if_neg hg]
        by_cases hmem : p ∈ ps
        · exact ih coll f d p hmem
        · rw [propagateDrop_other ps coll f d (some p, coll)
            (fun r hr => by simp; intro hre; exact hmem (hre ▸ hr))]
          unfold dropStep; rw [if_neg hg]
    · have hmem : p ∈ ps := by
        rcases List.mem_cons.mp hp with h | h
        · exact absurd h hpq
        · exact h
      simp only [propagateDrop]
      split
      · rw [ih coll f _ p hmem]
        congr 1
        exact putData_ne _ _ _ _ (by simp [hpq])
      · exact ih coll f d p hmem

/-! ## Schema-evolution spec lemmas and claims (C1, C6) -/

theorem addFieldToTable_spec (st : TMState) (tableName : String) (fc : FieldConfig)
    (i : Nat) (td : TableDef)
    (hidx : firstIdx (fun t => t.table_name == tableName) st.registry = some i)
    (htd : st.registry[i]? = some td)
    (hnew : fc.name ∉ (td.fields.map (fun f => f.name)).filter (fun n => !(n == ""))) :
    addFieldToTable st tableName fc =
      ((propagateAdd st.projects (collName tableName) fc.name
          (typedDefault fc.ftype fc.default) st.data).1,
       { registry := st.registry.set i { td with fields := td.fields ++ [fc] },
         projects := st.projects,
         data := (propagateAdd st.projects (collName tableName) fc.name
           (typedDefault fc.ftype fc.default) st.data).2 }) := by
  have hne : st.registry ≠ [] := firstIdx_ne_nil hidx
  have hgetD : st.registry.getD i default = td := by
    rw [List.getD_eq_getElem?_getD, htd]; rfl
  simp only [addFieldToTable, getAllTables_of_ne_nil hne, List.isEmpty_eq_false.mpr hne,
    Bool.false_eq_true, if_false, hidx, hgetD]
  rw [if_neg hnew]

theorem addFieldToTable_dup (st : TMState) (tableName : String) (fc : FieldConfig)
    (i : Nat) (td : TableDef)
    (hidx : firstIdx (fun t => t.table_name == tableName) st.registry = some i)
    (htd : st.registry[i]? = some td)
    (hdup : fc.name ∈ (td.fields.map (fun f => f.name)).filter (fun n => !(n == ""))) :
    addFieldToTable st tableName fc = (false, st) := by
  have hne : st.registry ≠ [] := firstIdx_ne_nil hidx
  have hgetD : st.registry.getD i default = td := by
    rw [List.getD_eq_getElem?_getD, htd]; rfl
  simp only [addFieldToTable, getAllTables_of_ne_nil hne, List.isEmpty_eq_false.mpr hne,
    Bool.false_eq_true, if_false, hidx, hgetD]
  rw [if_pos hdup]

theorem deleteFieldFromTable_spec (st : TMState) (tableName fieldName : String)
    (i : Nat) (td : TableDef)
    (hidx : firstIdx (fun t => t.table_name == tableName) st.registry = some i)
    (htd : st.registry[i]? = some td)
    (hlen : (td.fields.filter (fun f => !(f.name == fieldName))).length
      ≠ td.fields.length) :
    deleteFieldFromTable st tableName fieldName =
      (true, { registry := st.registry.set i
                 { td with fields := td.fields.filter (fun f => !(f.name == fieldName)) },
               projects := st.projects,
               data := propagateDrop st.projects (collName tableName) fieldName
                 st.data }) := by
  have hne : st.registry ≠ [] := firstIdx_ne_nil hidx
  have hgetD : st.registry.getD i default = td := by
    rw [List.getD_eq_getElem?_getD, htd]; rfl
  simp only [deleteFieldFromTable, getAllTables_of_ne_nil hne, List.isEmpty_eq_false.mpr hne,
    Bool.false_eq_true, if_false, hidx, hgetD]
  rw [if_neg hlen]

theorem propagateAdd_none_data : ∀ (ps : List String) (coll f : String)
    (d : Option String × String → DF), (propagateAdd ps coll f none d).2 = d := by
  intro ps
  induction ps with
  | nil => intro coll f d; rfl
  | cons p ps ih =>
    intro coll f d
    simp only [propagateAdd]
    split
    · rfl
    · exact ih coll f d

theorem dropStep_of_not_contains (f : String) (df : DF)
    (h : df.cols.contains f = false) : dropStep f df = df := by
  unfold dropStep
  rw [if_neg (by rw [h]; simp)]

theorem dropStep_addStep_cols (df : DF) (f : String) (v : Value)
    (h : df.cols.contains f = false) :
    (dropStep f (addStep f v df)).cols = df.cols := by
  have hf : f ∉ df.cols := by simpa using h
  unfold addStep dropStep
  by_cases hg : (!df.isEmpty && !(df.cols.contains f)) = true
  · have hI : df.isEmpty = false := by
      by_contra hI
      rw [Bool.not_eq_false] at hI
      rw [hI] at hg
      simp at hg
    have hrows : df.rows.isEmpty = false := by
      simp only [DF.isEmpty, Bool.or_eq_false_iff] at hI
      exact hI.1
    have hguard2 : (!(addColumn df f v).isEmpty && (addColumn df f v).cols.contains f)
        = true := by
      rw [addColumn_not_isEmpty df f v hrows, addColumn_contains]
      rfl
    rw [if_pos hg, if_pos hguard2]
    simp only [dropColumn, addColumn]
    rw [List.filter_append]
    have h1 : df.cols.filter (fun c => !(c == f)) = df.cols := by
      apply List.filter_eq_self.mpr
      intro c hc
      simp only [Bool.not_eq_eq_eq_not, Bool.not_true, beq_eq_false_iff_ne, ne_eq]
      intro hcf
      exact hf (hcf ▸ hc)
    have h2 : List.filter (fun c => !(c == f)) [f] = ([] : List String) := by simp
    rw [h1, h2, List.append_nil]
  · have hguard3 : (!df.isEmpty && df.cols.contains f) = false := by
      rw [h]
      simp
    rw [if_neg hg, if_neg (by rw [hguard3]; simp)]

/-- Claim C6 as amended: `add_field_to_table` with a field name not among
the table's registry fields, followed by `delete_field_from_table` with
that name, restores the registry to exactly its prior state and restores
the column set of every project's stored row-set, provided no project's
stored row-set already carried a column of that name.  This holds for every
field spec: when the typed default is computable the add propagates and the
delete drops exactly the added column; when a `Number` default fails to
parse, the add aborts after the registry write having touched no row-set,
and the delete still restores the registry while dropping nothing.  A
drifted row-set that already had the column keeps it through the add step
but loses it in the delete step, so the proviso is necessary (see the
counterexample). -/
theorem claim_C6_add_then_delete (st : TMState) (tableName : String) (fc : FieldConfig)
    (i : Nat) (td : TableDef)
    (hidx : firstIdx (fun t => t.table_name == tableName) st.registry = some i)
    (htd : st.registry[i]? = some td)
    (hnew : ∀ g ∈ td.fields, g.name ≠ fc.name)
    (hdrift : ∀ p ∈ st.projects,
      (st.data (some p, collName tableName)).cols.contains fc.name = false) :
    (deleteFieldFromTable (addFieldToTable st tableName fc).2 tableName fc.name).1 = true ∧
    (deleteFieldFromTable (addFieldToTable st tableName fc).2 tableName fc.name).2.registry
        = st.registry ∧
    (∀ p ∈ st.projects,
      ((deleteFieldFromTable (addFieldToTable st tableName fc).2 tableName fc.name).2.data
        (some p, collName tableName)).cols
          = (st.data (some p, collName tableName)).cols) := by
  have hnew2 : fc.name ∉ (td.fields.map (fun f => f.name)).filter (fun n => !(n == "")) := by
    intro hmem
    rcases List.mem_filter.mp hmem with ⟨hmem2, _⟩
    rcases List.mem_map.mp hmem2 with ⟨g, hg, hgn⟩
    exact hnew g hg hgn
  have hadd := addFieldToTable_spec st tableName fc i td hidx htd hnew2
  have hptd : (fun t : TableDef => t.table_name == tableName) td = true := by
    obtain ⟨a, ha, hpa⟩ := firstIdx_getElem? hidx
    rw [htd] at ha
    cases ha
    exact hpa
  have hi : i < st.registry.length := (List.getElem?_eq_some_iff.mp htd).1
  rw [hadd]
  have hidx1 : firstIdx (fun t => t.table_name == tableName)
      (st.registry.set i { td with fields := td.fields ++ [fc] }) = some i :=
    firstIdx_set hidx hptd
  have htd1 : (st.registry.set i { td with fields := td.fields ++ [fc] })[i]?
      = some { td with fields := td.fields ++ [fc] } :=
    List.getElem?_set_self (by simpa using hi)
  have hfieldsRaw : (td.fields ++ [fc]).filter (fun f => !(f.name == fc.name))
      = td.fields := by
    rw [List.filter_append]
    have h1 : td.fields.filter (fun f => !(f.name == fc.name)) = td.fields := by
      apply List.filter_eq_self.mpr
      intro g hg
      simpa using hnew g hg
    have h2 : List.filter (fun f => !(f.name == fc.name)) [fc] = [] := by simp
    rw [h1, h2, List.append_nil]
  have hlenRaw : (((td.fields ++ [fc]).filter (fun f => !(f.name == fc.name))).length
      ≠ (td.fields ++ [fc]).length) := by
    rw [hfieldsRaw]
    simp
  have hdel := deleteFieldFromTable_spec
    { registry := st.registry.set i { td with fields := td.fields ++ [fc] },
      projects := st.projects,
      data := (propagateAdd st.projects (collName tableName) fc.name
        (typedDefault fc.ftype fc.default) st.data).2 }
    tableName fc.name i { td with fields := td.fields ++ [fc] } hidx1 htd1 hlenRaw
  rw [hdel]
  refine ⟨rfl, ?_, ?_⟩
  · dsimp only
    rw [List.set_set, hfieldsRaw]
    exact set_self_of_getElem? st.registry i td htd
  · intro p hp
    dsimp only
    rw [propagateDrop_mem st.projects (collName tableName) fc.name _ p hp]
    cases hdvc : typedDefault fc.ftype fc.default with
    | none =>
      rw [propagateAdd_none_data st.projects (collName tableName) fc.name st.data,
        dropStep_of_not_contains fc.name _ (hdrift p hp)]
    | some dv =>
      rw [propagateAdd_mem st.projects (collName tableName) fc.name dv st.data p hp]
      exact dropStep_addStep_cols _ fc.name dv (hdrift p hp)

/-- Claim C1 (counterexample to the claim as stated): the new column is not
added to the stored row-set of every associated project.  Table `T` is
associated with every project (`All`), field `b` is not among its fields,
and `add_field_to_table` returns `True` — but project `P`'s stored row-set,
which is empty (0 rows, provisioned with column `a` only), is skipped by
the propagation (`if not table_data.empty`), so it never receives the
column `b`. -/
theorem claim_C1_counterexample :
    fcB.name ∉ ((stEmptyRowSet.registry.getD 0 default).fields.map (fun f => f.name)) ∧
    "All" ∈ ((stEmptyRowSet.registry.getD 0 default).associated_projects.getD []) ∧
    (addFieldToTable stEmptyRowSet "T" fcB).1 = true ∧
    ((addFieldToTable stEmptyRowSet "T" fcB).2.data (some "P", collName "T")).cols
        = ["a"] ∧
    fcB.name ∉ ((addFieldToTable stEmptyRowSet "T" fcB).2.data
        (some "P", collName "T")).cols := by
  decide

/-- Claim C1 as amended: for a table present in the registry (first row `i`,
definition `td`): if a field of the requested name already exists,
`add_field_to_table` returns `False` and leaves the whole state unchanged;
otherwise, whenever the field's typed default is computable as a value `dv`
(any non-`Number` field, or a `Number` field whose default is empty or
parses as a number; the default rules are those of the claim — numeric
default coerced to float, boolean default parsed from `'true'`, otherwise
the raw string, via `typedDefault`), it returns `True`, appends the field
spec to the table's field sequence in the registry, and adds the new column
filled with `dv` to the stored row-set of every project in the projects
registry whose row-set is non-empty and lacks the column — projects whose
stored row-set is empty (in particular freshly provisioned associated
projects) or already carries the column are left unchanged, which is where
the claim as stated fails — and touches no other stored row-set. -/
theorem claim_C1_add_field (st : TMState) (tableName : String) (fc : FieldConfig)
    (i : Nat) (td : TableDef)
    (hidx : firstIdx (fun t => t.table_name == tableName) st.registry = some i)
    (htd : st.registry[i]? = some td) :
    (fc.name ∈ (td.fields.map (fun f => f.name)).filter (fun n => !(n == "")) →
      addFieldToTable st tableName fc = (false, st)) ∧
    (∀ dv : Value,
      fc.name ∉ (td.fields.map (fun f => f.name)).filter (fun n => !(n == "")) →
      typedDefault fc.ftype fc.default = some dv →
      (addFieldToTable st tableName fc).1 = true ∧
      (addFieldToTable st tableName fc).2.registry
          = st.registry.set i { td with fields := td.fields ++ [fc] } ∧
      (∀ p ∈ st.projects,
        (addFieldToTable st tableName fc).2.data (some p, collName tableName)
          = addStep fc.name dv (st.data (some p, collName tableName))) ∧
      (∀ k, (∀ p ∈ st.projects, k ≠ (some p, collName tableName)) →
        (addFieldToTable st tableName fc).2.data k = st.data k)) := by
  constructor
  · intro hdup
    exact addFieldToTable_dup st tableName fc i td hidx htd hdup
  · intro dv hnew hdv
    rw [addFieldToTable_spec st tableName fc i td hidx htd hnew, hdv]
    refine ⟨propagateAdd_fst st.projects (collName tableName) fc.name dv st.data,
      rfl, ?_, ?_⟩
    · intro p hp
      exact propagateAdd_mem st.projects (collName tableName) fc.name dv st.data p hp
    · intro k hk
      exact propagateAdd_other st.projects (collName tableName) fc.name (some dv) st.data k hk

/-- Witness for the amended C1: adding the fresh field `b` to table `T`
over a one-row project row-set succeeds, and re-adding the existing field
`a` fails leaving the state unchanged. -/
theorem claim_C1_witness :
    (addFieldToTable stOneRow "T" fcB).1 = true ∧
    addFieldToTable stOneRow "T" ⟨"a", "Text", true, ""⟩ = (false, stOneRow) :=
  ⟨((claim_C1_add_field stOneRow "T" fcB 0
      ⟨"T", "d", [⟨"a", "Text", true, ""⟩], "", "user-created", some ["All"]⟩
      (by decide) (by decide)).2 (Value.vStr "") (by decide) rfl).1,
   (claim_C1_add_field stOneRow "T" ⟨"a", "Text", true, ""⟩ 0
      ⟨"T", "d", [⟨"a", "Text", true, ""⟩], "", "user-created", some ["All"]⟩
      (by decide) (by decide)).1 (by decide)⟩

/-- Claim C6 (counterexample to the claim as stated): under schema drift the
column set is not restored.  Field `b` is not among table `T`'s registry
fields, but project `P`'s stored row-set already carries a column `b`; the
add step leaves it alone (the column exists), and the delete step then
drops it, so the final column set `[a]` differs from the prior `[a, b]`. -/
theorem claim_C6_counterexample :
    fcB.name ∉ ((stDrift.registry.getD 0 default).fields.map (fun f => f.name)) ∧
    (addFieldToTable stDrift "T" fcB).1 = true ∧
    (deleteFieldFromTable (addFieldToTable stDrift "T" fcB).2 "T" "b").1 = true ∧
    (stDrift.data (some "P", collName "T")).cols = ["a", "b"] ∧
    ((deleteFieldFromTable (addFieldToTable stDrift "T" fcB).2 "T" "b").2.data
        (some "P", collName "T")).cols = ["a"] := by
  decide

/-- Witness for the amended C6: add then delete of field `b` on table `T`
restores the registry over a drift-free one-row project row-set. -/
theorem claim_C6_witness :
    (deleteFieldFromTable (addFieldToTable stOneRow "T" fcB).2 "T" fcB.name).2.registry
        = stOneRow.registry :=
  (claim_C6_add_then_delete stOneRow "T" fcB 0
    ⟨"T", "d", [⟨"a", "Text", true, ""⟩], "", "user-created", some ["All"]⟩
    (by decide) (by decide) (by decide) (by decide)).2.1
